import Mathlib

/-!
Verification of the task-orchestration core of a Minecraft bot
(`minecraft-mcp`): a shallow embedding, in Lean 4, of the state and
operations of `BotManager` (src/core/bot-manager.ts), `AuthHandler`
(src/auth/auth-handler.ts), `GoalExecutor` (src/movement/goal-executor.ts)
and `PathfinderController` (src/movement/pathfinder.ts), together with
theorems settling the specification's testable properties.

Conventions of the embedding:
* JS numbers used as block coordinates are modelled as rationals (`ℚ`);
  `Math.floor` is `jsFloor`, proved equal to Mathlib's `Int.floor`.
* The external collaborators (mineflayer world client and the path
  solver) are modelled as oracles: promise resolutions, thrown errors
  and the moments at which a concurrent `stopMovement()` lands are
  supplied as explicit script data, so every interleaving the event
  loop could produce is quantified over.
* Fallible methods return values of explicit outcome types instead of
  throwing; `finally` blocks are applied on every exit path of the
  embedding exactly as in the source.
-/

namespace MCBot

/-- `Math.floor` on a rational, in the normal form `num / den`
(Euclidean division by a positive denominator, which is floor
division). -/
def jsFloor (q : ℚ) : ℤ := q.num / (q.den : ℤ)

theorem jsFloor_eq_floor (q : ℚ) : jsFloor q = ⌊q⌋ := (Rat.floor_def).symm

/-! ## Area geometry (`bot-manager.ts` lines 575–726) -/

/-- `AreaCoordinates` from `bot-manager.ts`: a raw coordinate triple as
passed by a caller (JS numbers, not yet floored). -/
structure AreaCoordinates where
  x : ℚ
  y : ℚ
  z : ℚ
deriving DecidableEq

/-- `AreaBounds` from `bot-manager.ts`: the inclusive integer bounding
box of an area task. -/
structure AreaBounds where
  minX : ℤ
  maxX : ℤ
  minY : ℤ
  maxY : ℤ
  minZ : ℤ
  maxZ : ℤ
deriving DecidableEq

/-- `BotManager.buildAreaBounds`: floor each coordinate of the two
corners, then take the per-axis min and max. -/
def buildAreaBounds (a b : AreaCoordinates) : AreaBounds :=
  let fromX := jsFloor a.x
  let fromY := jsFloor a.y
  let fromZ := jsFloor a.z
  let toX := jsFloor b.x
  let toY := jsFloor b.y
  let toZ := jsFloor b.z
  { minX := min fromX toX
    maxX := max fromX toX
    minY := min fromY toY
    maxY := max fromY toY
    minZ := min fromZ toZ
    maxZ := max fromZ toZ }

/-- An integer block cell. Block positions handed to `blockKey` and
`isWithinArea` are integer block coordinates, so `Math.floor` is the
identity on them and the key of a cell is the cell itself. -/
structure Cell where
  x : ℤ
  y : ℤ
  z : ℤ
deriving DecidableEq

/-- `BotManager.isWithinArea`: inclusive containment test against the
bounding box. -/
def isWithinArea (c : Cell) (bounds : AreaBounds) : Bool :=
  bounds.minX ≤ c.x && c.x ≤ bounds.maxX
    && bounds.minY ≤ c.y && c.y ≤ bounds.maxY
    && bounds.minZ ≤ c.z && c.z ≤ bounds.maxZ

/-- `BotManager.findNextBlockInArea`: the world is the list of
currently diggable block cells in scan order; the search returns the
first cell that lies within the bounds and is not in the ignored set
(the source applies the same filter in the `findBlocks` matcher and
again on each candidate before returning it). -/
def findNextBlockInArea (world : List Cell) (bounds : AreaBounds)
    (ignoredBlocks : List Cell) : Option Cell :=
  world.find? (fun c => isWithinArea c bounds && !(ignoredBlocks.contains c))

/-! ## BotManager state and the cancellation token
(`bot-manager.ts` lines 57–68 and 398–411) -/

/-- The `BotManager` fields the orchestration claims depend on.
`botPresent` is `this.bot !== null`, `entityPresent` is
`this.bot.entity !== undefined`, `controllerPresent` is
`this.movementController !== null` and `controllerInitialized` is
`this.movementController.isInitialized()`. -/
structure BotManagerState where
  botPresent : Bool
  entityPresent : Bool
  controllerPresent : Bool
  controllerInitialized : Bool
  miningInProgress : Bool
  abortMining : Bool
  stopSignal : Nat
deriving DecidableEq

/-- `BotManager.isReady`. -/
def isReady (s : BotManagerState) : Bool := s.botPresent && s.entityPresent

/-- External commands issued by `stopMovement` via optional chaining:
`this.bot?.stopDigging()` and `this.movementController?.stop()`. -/
inductive StopEffect where
  | stopDigging
  | controllerStop
deriving DecidableEq

/-- `BotManager.stopMovement`: increment the stop counter, set the
mining abort flag, then (only where the optional receivers exist)
issue the external stop commands. Total on every state: a missing bot
or movement controller merely suppresses the corresponding command. -/
def stopMovement (s : BotManagerState) : BotManagerState × List StopEffect :=
  ({ s with stopSignal := s.stopSignal + 1, abortMining := true },
    (if s.botPresent then [StopEffect.stopDigging] else [])
      ++ (if s.controllerPresent then [StopEffect.controllerStop] else []))

/-- `BotManager.getStopSignal`. -/
def getStopSignal (s : BotManagerState) : Nat := s.stopSignal

/-- `BotManager.wasStoppedAfter`. -/
def wasStoppedAfter (s : BotManagerState) (signal : Nat) : Bool :=
  s.stopSignal != signal

/-! ## Movement events and the pathfinder controller's `stop`
(`pathfinder.ts` lines 135–141, `goal-executor.ts` lines 70–76) -/

inductive MoveEvt where
  | started (description : String)
  | reached (description : String)
  | failed (description : String) (err : String)
  | stopped (reason : String)
  | retried (description : String)
deriving DecidableEq

/-- The `PathfinderController` fields relevant to `stop`. -/
structure PathfinderControllerState where
  initialized : Bool
  goalExecutorPresent : Bool
  currentGoal : Option String
deriving DecidableEq

/-- `PathfinderController.stop`: a no-op unless the controller is
initialized and the goal executor exists; otherwise
`GoalExecutor.stopCurrentGoal('manual stop')`, which clears the goal
at the solver and emits `goal_stopped`. -/
def pathfinderStop (p : PathfinderControllerState) :
    PathfinderControllerState × List MoveEvt :=
  if !p.initialized || !p.goalExecutorPresent then (p, [])
  else ({ p with currentGoal := Option.none }, [MoveEvt.stopped "manual stop"])

/-! ## Goal execution (`goal-executor.ts` lines 28–127) -/

/-- Resolution of the race run by `GoalExecutor.withTimeout` between
the solver's `goto` promise and the timeout timer: the solver resolves
first, the solver rejects first, or the timer fires first. -/
inductive RaceOutcome where
  | resolved
  | rejectedWith (err : String)
  | timedOut
deriving DecidableEq

/-- Everything observable about one `executeGoto` attempt: the events
emitted on the executor, whether `pathfinder.setGoal(null)` was called
to clear the goal at the solver, the resolution of the returned
promise, and the goal fields after the `finally` block. -/
structure ExecOutcome where
  events : List MoveEvt
  clearedAtSolver : Bool
  result : Except String Unit
  finalGoal : Option String

/-- `GoalExecutor.withTimeout`: settle with the solver's resolution if
it wins the race, and reject with the timeout message if the timer
fires first. -/
def withTimeout (race : RaceOutcome) (errorMessage : String) : Except String Unit :=
  match race with
  | RaceOutcome.resolved => Except.ok ()
  | RaceOutcome.rejectedWith e => Except.error e
  | RaceOutcome.timedOut => Except.error errorMessage

/-- `GoalExecutor.executeGoto`: emit `goal_started`, await the race;
on resolution emit `goal_reached`; on any rejection clear the goal at
the solver (`setGoal(null)`), emit `goal_failed` and propagate the
error; in all cases the `finally` block clears the current-goal
fields. -/
def executeGoto (description : String) (race : RaceOutcome) : ExecOutcome :=
  match withTimeout race ("Movement timeout: " ++ description) with
  | Except.ok _ =>
    { events := [MoveEvt.started description, MoveEvt.reached description]
      clearedAtSolver := false
      result := Except.ok ()
      finalGoal := Option.none }
  | Except.error e =>
    { events := [MoveEvt.started description, MoveEvt.failed description e]
      clearedAtSolver := true
      result := Except.error e
      finalGoal := Option.none }

/-- `GoalExecutor.goToBlock`: floor the target and run `executeGoto`
with a `goto (x, y, z)` description. -/
def goToBlock (x y z : ℚ) (race : RaceOutcome) : ExecOutcome :=
  executeGoto ("goto (" ++ toString (jsFloor x) ++ ", " ++ toString (jsFloor y)
    ++ ", " ++ toString (jsFloor z) ++ ")") race

/-- `GoalExecutor.goNear`: floor the target and run `executeGoto` with
a `goNear (x, y, z) r=range` description. -/
def goNear (x y z : ℚ) (range : Nat) (race : RaceOutcome) : ExecOutcome :=
  executeGoto ("goNear (" ++ toString (jsFloor x) ++ ", " ++ toString (jsFloor y)
    ++ ", " ++ toString (jsFloor z) ++ ") r=" ++ toString range) race

/-- A terminal movement event: `goal_reached` or `goal_failed`. -/
def isTerminalEvt : MoveEvt → Bool
  | MoveEvt.reached _ => true
  | MoveEvt.failed _ _ => true
  | _ => false

/-- Number of terminal events in an emitted event list. -/
def terminalCount (events : List MoveEvt) : Nat :=
  (events.filter isTerminalEvt).length

/-! ## Authentication negotiation (`auth-handler.ts`) -/

/-- `AuthState` from `auth-handler.ts`. Timestamps are integer epoch
milliseconds. -/
structure AuthState where
  registered : Bool
  loggedIn : Bool
  attempts : Nat
  lastAttempt : Option ℤ
deriving DecidableEq

/-- The configuration bit consulted by the auth handler
(`config.auth.autoRegister`, from `config-loader.ts`). -/
structure AuthCfg where
  autoRegister : Bool
deriving DecidableEq

/-- Classification of one inbound chat line against the handler's
pattern lists: whether it matches any success pattern, whether the
plain `/register/i` test inside the success branch matches, whether it
matches any registration pattern and whether it matches any login
pattern. The regex lists themselves are data; the claims are about the
state machine driven by their verdicts. -/
structure Msg where
  matchesSuccess : Bool
  mentionsRegister : Bool
  matchesRegistration : Bool
  matchesLogin : Bool
deriving DecidableEq

/-- Events emitted by the auth handler. -/
inductive AuthEvent where
  | authSuccess
  | authRequired (kind : String)
  | authTimeout
deriving DecidableEq

/-- What `handleChatMessage` decides to launch (the source fires the
attempt sequence with `void this.attempt...()`). -/
inductive AuthAction where
  | idle
  | startRegistration
  | startLogin
deriving DecidableEq

/-- `AuthHandler.canAttemptNow`: true when there is no previous
attempt or at least `minAttemptIntervalMs = 3000` ms have elapsed. -/
def canAttemptNow (st : AuthState) (now : ℤ) : Bool :=
  match st.lastAttempt with
  | Option.none => true
  | Option.some t => decide (3000 ≤ now - t)

/-- Result of classifying one chat line. -/
structure ChatStep where
  state : AuthState
  action : AuthAction
  events : List AuthEvent
deriving DecidableEq

/-- `AuthHandler.handleChatMessage`: success patterns first (set
`loggedIn`, and `registered` when the text mentions register, emit
`auth_success`, stop checking); then return early if already logged
in; then registration prompts (only if not yet registered, throttled);
then login prompts (throttled). -/
def handleChatMessage (st : AuthState) (m : Msg) (now : ℤ) : ChatStep :=
  if m.matchesSuccess then
    { state :=
        { st with
            loggedIn := true,
            registered := st.registered || m.mentionsRegister }
      action := AuthAction.idle
      events := [AuthEvent.authSuccess] }
  else if st.loggedIn then
    { state := st, action := AuthAction.idle, events := [] }
  else if m.matchesRegistration && !st.registered then
    if !canAttemptNow st now then
      { state := st, action := AuthAction.idle, events := [] }
    else
      { state := st, action := AuthAction.startRegistration, events := [] }
  else if m.matchesLogin then
    if !canAttemptNow st now then
      { state := st, action := AuthAction.idle, events := [] }
    else
      { state := st, action := AuthAction.startLogin, events := [] }
  else
    { state := st, action := AuthAction.idle, events := [] }

/-- The body of the submission loops in `attemptRegistration` /
`attemptLogin`: send each candidate command (the send happens before
any check), increment `attempts` and stamp `lastAttempt`, then observe
the shared `loggedIn` flag after the fixed delay — `observations`
supplies, per submission, whether a concurrently processed success
line has set it — and stop early on success (the registration variant
also marks `registered`). Returns the final state and the commands
actually sent. -/
def runSubmissions (markRegistered : Bool) :
    List String → List Bool → AuthState → ℤ → AuthState × List String
  | [], _, st, _ => (st, [])
  | c :: cs, observations, st, now =>
    let st1 := { st with attempts := st.attempts + 1, lastAttempt := Option.some now }
    let observedLoggedIn := st1.loggedIn || observations.headD false
    if observedLoggedIn then
      (if markRegistered then { st1 with loggedIn := true, registered := true }
        else { st1 with loggedIn := true }, [c])
    else
      let next := runSubmissions markRegistered cs observations.tail st1 now
      (next.1, c :: next.2)

/-- Result of one attempt sequence: final state, chat commands sent to
the world link, events emitted. -/
structure AttemptResult where
  state : AuthState
  commands : List String
  events : List AuthEvent
deriving DecidableEq

/-- `AuthHandler.attemptRegistration`: when `auth.autoRegister` is
disabled, send nothing and emit `auth_required('registration')`;
otherwise run the four registration command candidates and emit
`auth_required('registration')` only if still not logged in at the
end. -/
def attemptRegistration (cfg : AuthCfg) (password : String) (st : AuthState)
    (now : ℤ) (observations : List Bool) : AttemptResult :=
  if !cfg.autoRegister then
    { state := st, commands := []
      events := [AuthEvent.authRequired "registration"] }
  else
    let cs := ["/register " ++ password ++ " " ++ password,
      "/register " ++ password,
      "/reg " ++ password ++ " " ++ password,
      "/reg " ++ password]
    let r := runSubmissions true cs observations st now
    if r.1.loggedIn then { state := r.1, commands := r.2, events := [] }
    else { state := r.1, commands := r.2
           events := [AuthEvent.authRequired "registration"] }

/-- `AuthHandler.attemptLogin`: no configuration gate in the source —
always run the two login command candidates, and emit
`auth_required('login')` only if still not logged in at the end. -/
def attemptLogin (password : String) (st : AuthState) (now : ℤ)
    (observations : List Bool) : AttemptResult :=
  let cs := ["/login " ++ password, "/l " ++ password]
  let r := runSubmissions false cs observations st now
  if r.1.loggedIn then { state := r.1, commands := r.2, events := [] }
  else { state := r.1, commands := r.2
         events := [AuthEvent.authRequired "login"] }

/-- One inbound chat line processed end to end: classify it, then run
the attempt sequence it launches (if any). -/
def handleMessageAndRun (cfg : AuthCfg) (password : String) (st : AuthState)
    (m : Msg) (now : ℤ) (observations : List Bool) : AttemptResult :=
  let step := handleChatMessage st m now
  match step.action with
  | AuthAction.idle =>
    { state := step.state, commands := [], events := step.events }
  | AuthAction.startRegistration =>
    let r := attemptRegistration cfg password step.state now observations
    { r with events := step.events ++ r.events }
  | AuthAction.startLogin =>
    let r := attemptLogin password step.state now observations
    { r with events := step.events ++ r.events }

/-- A whole sequence of inbound chat lines, each given as the line's
classification, its arrival time and the mid-sequence `loggedIn`
observations of the attempt sequence it may launch. Returns the final
auth state and all commands sent. -/
def runChat (cfg : AuthCfg) (password : String) :
    List (Msg × ℤ × List Bool) → AuthState → AuthState × List String
  | [], st => (st, [])
  | (m, now, observations) :: rest, st =>
    let r := handleMessageAndRun cfg password st m now observations
    let tail := runChat cfg password rest r.state
    (tail.1, r.commands ++ tail.2)

/-! ## The area-mining task (`bot-manager.ts` lines 413–502)

The loop body awaits external operations (`moveTo`, `mineBlock`);
their resolutions, and the instants at which a concurrent
`stopMovement()` lands, are supplied per iteration as script data, so
the theorems quantify over every interleaving of the event loop. -/

/-- Outcome of the repositioning `moveTo(center)` await (the source
does not wrap it in the inner try/catch). -/
inductive MoveRes where
  | ok
  | threw
deriving DecidableEq

/-- Outcome of a `mineBlock` await: the dig succeeded (`mined`), the
re-resolved block was no longer eligible or not diggable (`false`
return), or the call threw. -/
inductive MineRes where
  | mined
  | notEligible
  | threw
deriving DecidableEq

/-- Oracle data for one loop iteration: whether a `stopMovement()`
landed before the top-of-loop abort check, during the repositioning
await, or during the `mineBlock` await, and how each await settled. -/
structure IterEnv where
  stopAtTop : Bool
  stopDuringMove : Bool
  moveRes : MoveRes
  stopDuringMine : Bool
  mineRes : MineRes
deriving DecidableEq

/-- The mining loop's live state: the manager state (for the abort
flag and stop counter), the world's diggable cells, the
`ignoredBlocks` set, both counters, the rescan flag, and — as
instrumentation for the no-revisit property — every cell
`findNextBlockInArea` has returned so far, most recent first. -/
structure LoopState where
  bm : BotManagerState
  world : List Cell
  ignoredBlocks : List Cell
  minedBlocks : Nat
  skippedBlocks : Nat
  shouldRescanAfterReposition : Bool
  selections : List Cell
deriving DecidableEq

/-- A concurrent `stopMovement()` landing during the loop: only its
effect on the manager state matters here. -/
def applyStop (st : LoopState) : LoopState :=
  { st with bm := (stopMovement st.bm).1 }

/-- How the loop ends: a `break` returning the counters, a thrown
error propagating out of the `while`, or the iteration script ran out
(the run is still in progress; no exit path was taken). -/
inductive LoopOut where
  | finished (minedBlocks skippedBlocks : Nat) (st : LoopState)
  | errored (st : LoopState)
  | outOfScript (st : LoopState)
deriving DecidableEq

/-- What one iteration decides: continue with a new state, or leave
the loop. -/
inductive StepRes where
  | next (st : LoopState)
  | halt (out : LoopOut)
deriving DecidableEq

/-- One iteration of the mining loop (source lines 446–484): check the
abort flag; search for the next eligible cell; if none, either give up
(after an unproductive rescan) or reposition toward the hover point —
an await during which a stop may land and which may throw,
unprotected; if a cell is found, run `mineBlock` under the inner
try/catch: success increments `minedBlocks` and removes the cell from
the world, a `false` return or an absorbed error marks the cell
ignored and increments `skippedBlocks`, and a throw observed with the
abort flag set breaks out cleanly. -/
def mineStep (bounds : AreaBounds) (ev : IterEnv) (st : LoopState) : StepRes :=
  let st1 := if ev.stopAtTop then applyStop st else st
  if st1.bm.abortMining then
    StepRes.halt (LoopOut.finished st1.minedBlocks st1.skippedBlocks st1)
  else
    match findNextBlockInArea st1.world bounds st1.ignoredBlocks with
    | Option.none =>
      if !st1.shouldRescanAfterReposition then
        StepRes.halt (LoopOut.finished st1.minedBlocks st1.skippedBlocks st1)
      else
        let st2 := { st1 with shouldRescanAfterReposition := false }
        let st3 := if ev.stopDuringMove then applyStop st2 else st2
        match ev.moveRes with
        | MoveRes.threw => StepRes.halt (LoopOut.errored st3)
        | MoveRes.ok => StepRes.next st3
    | Option.some c =>
      let st2 := { st1 with
        shouldRescanAfterReposition := true,
        selections := c :: st1.selections }
      let st3 := if ev.stopDuringMine then applyStop st2 else st2
      match ev.mineRes with
      | MineRes.mined =>
        StepRes.next { st3 with
          world := st3.world.erase c,
          minedBlocks := st3.minedBlocks + 1 }
      | MineRes.notEligible =>
        StepRes.next { st3 with
          skippedBlocks := st3.skippedBlocks + 1,
          ignoredBlocks := c :: st3.ignoredBlocks }
      | MineRes.threw =>
        if st3.bm.abortMining then
          StepRes.halt (LoopOut.finished st3.minedBlocks st3.skippedBlocks st3)
        else
          StepRes.next { st3 with
            skippedBlocks := st3.skippedBlocks + 1,
            ignoredBlocks := c :: st3.ignoredBlocks }

/-- The `while (true)` loop, driven by the iteration script. The
top-of-loop abort check consumes no external interaction, so it also
applies when the script is exhausted. -/
def mineLoop (bounds : AreaBounds) : List IterEnv → LoopState → LoopOut
  | [], st =>
    if st.bm.abortMining then
      LoopOut.finished st.minedBlocks st.skippedBlocks st
    else LoopOut.outOfScript st
  | ev :: rest, st =>
    match mineStep bounds ev st with
    | StepRes.next st2 => mineLoop bounds rest st2
    | StepRes.halt out => out

/-- The loop state an ended run left behind. -/
def finalLoopState : LoopOut → LoopState
  | LoopOut.finished _ _ st => st
  | LoopOut.errored st => st
  | LoopOut.outOfScript st => st

/-- `MineAreaResult` from `bot-manager.ts`. -/
structure MineAreaResult where
  minedBlocks : Nat
  skippedBlocks : Nat
deriving DecidableEq

/-- The errors `mineArea` can reject with. The four guard errors are
thrown before any state is mutated; `movementError` stands for any
error propagating out of the loop (an unprotected repositioning
failure). -/
inductive MineError where
  | botNotReady
  | controllerUnavailable
  | controllerUninitialized
  | taskAlreadyRunning
  | movementError
deriving DecidableEq

/-- Result of a `mineArea` call: resolution with counts, rejection, or
a run whose script ended mid-task (no exit path taken yet). The
manager state carried by `ok`/`err` is the state after every
`finally` that runs on that path. -/
inductive MineAreaOut where
  | ok (result : MineAreaResult) (bm : BotManagerState)
  | err (e : MineError) (bm : BotManagerState)
  | incomplete (st : LoopState)
deriving DecidableEq

/-- The `finally` of `mineArea`: clear `miningInProgress` and
`abortMining`. -/
def finallyClear (bm : BotManagerState) : BotManagerState :=
  { bm with miningInProgress := false, abortMining := false }

/-- The loop state at task start: `miningInProgress` set,
`abortMining` cleared, empty ignored set, zero counters, rescan
allowed, nothing selected yet. -/
def mineAreaInit (bm : BotManagerState) (world : List Cell) : LoopState :=
  { bm := { bm with miningInProgress := true, abortMining := false }
    world := world
    ignoredBlocks := []
    minedBlocks := 0
    skippedBlocks := 0
    shouldRescanAfterReposition := true
    selections := [] }

/-- `BotManager.mineArea`: the four entry guards (readiness,
controller presence, controller initialization, task-already-running),
then set `miningInProgress`, clear `abortMining`, build the bounds and
run the loop; the `finally` clears both flags on every path that
leaves the call. -/
def mineArea (bm : BotManagerState) (world : List Cell)
    (cornerA cornerB : AreaCoordinates) (script : List IterEnv) : MineAreaOut :=
  if !(isReady bm) then MineAreaOut.err MineError.botNotReady bm
  else if !bm.controllerPresent then
    MineAreaOut.err MineError.controllerUnavailable bm
  else if !bm.controllerInitialized then
    MineAreaOut.err MineError.controllerUninitialized bm
  else if bm.miningInProgress then
    MineAreaOut.err MineError.taskAlreadyRunning bm
  else
    match mineLoop (buildAreaBounds cornerA cornerB) script (mineAreaInit bm world) with
    | LoopOut.finished m s stF =>
      MineAreaOut.ok (MineAreaResult.mk m s) (finallyClear stF.bm)
    | LoopOut.errored stF =>
      MineAreaOut.err MineError.movementError (finallyClear stF.bm)
    | LoopOut.outOfScript stF => MineAreaOut.incomplete stF

/-- The invariant backing the no-revisit property: the world list
holds each cell at most once, no cell was selected twice, and every
previously selected cell is already decided — gone from the world or
in the ignored set. -/
def LoopInv (st : LoopState) : Prop :=
  st.world.Nodup ∧ st.selections.Nodup
    ∧ ∀ c ∈ st.selections, c ∉ st.world ∨ c ∈ st.ignoredBlocks

/-- What the no-revisit invariant demands of one iteration's result. -/
def stepOk : StepRes → Prop
  | StepRes.next st2 => LoopInv st2
  | StepRes.halt out => (finalLoopState out).selections.Nodup

/-! ## Reconnection scheduling (`bot-manager.ts` lines 298–331) -/

/-- The configuration fields `handleReconnect` reads
(`config.advanced`, from `config-loader.ts`). -/
structure AdvancedCfg where
  maxReconnectAttempts : Nat
  reconnectDelayMs : Nat
deriving DecidableEq

/-- The `BotManager` fields driving reconnection. -/
structure ReconnState where
  isShuttingDown : Bool
  reconnectTimerPending : Bool
  reconnectAttempts : Nat
deriving DecidableEq

/-- What one `handleReconnect` call does. -/
inductive ReconnectDecision where
  | skippedShuttingDown
  | skippedTimerPending
  | budgetExhausted
  | scheduled (delayMs : Nat)
deriving DecidableEq

/-- `BotManager.handleReconnect`: skip while shutting down, while a
timer is pending, or once the attempt budget is exhausted; otherwise
increment the attempt counter and schedule a reconnect after
`min(reconnectDelayMs * 2^(attempts-1), 60000)` ms. -/
def handleReconnect (cfg : AdvancedCfg) (s : ReconnState) :
    ReconnState × ReconnectDecision :=
  if s.isShuttingDown then (s, ReconnectDecision.skippedShuttingDown)
  else if s.reconnectTimerPending then (s, ReconnectDecision.skippedTimerPending)
  else if cfg.maxReconnectAttempts ≤ s.reconnectAttempts then
    (s, ReconnectDecision.budgetExhausted)
  else
    let n := s.reconnectAttempts + 1
    let delayMs := min (cfg.reconnectDelayMs * 2 ^ (n - 1)) 60000
    ({ s with reconnectAttempts := n, reconnectTimerPending := true },
      ReconnectDecision.scheduled delayMs)

/-- The backoff formula of the specification. -/
def reconnectDelay (baseDelay n : Nat) : Nat :=
  min (baseDelay * 2 ^ (n - 1)) 60000

end MCBot

namespace MCBot

/-- Helper: processing one chat line from a logged-in state keeps
`loggedIn` true, leaves `attempts` unchanged and sends no commands. -/
theorem handleMessageAndRun_after_success (cfg : AuthCfg) (password : String)
    (st : AuthState) (m : Msg) (now : ℤ) (observations : List Bool)
    (h : st.loggedIn = true) :
    (handleMessageAndRun cfg password st m now observations).state.loggedIn = true
      ∧ (handleMessageAndRun cfg password st m now observations).state.attempts
          = st.attempts
      ∧ (handleMessageAndRun cfg password st m now observations).commands = [] := by
  by_cases hs : m.matchesSuccess = true <;>
    simp [handleMessageAndRun, handleChatMessage, hs, h]

/-- Claim C6: once `loggedIn` is true it never becomes false again,
and no chat line processed from a logged-in state — in particular no
registration or login prompt classified after a success-pattern match
— launches a new credential-submission attempt: over any sequence of
inbound lines, `attempts` stays unchanged and no command is sent. -/
theorem auth_loggedIn_monotone (cfg : AuthCfg) (password : String)
    (msgs : List (Msg × ℤ × List Bool)) (st : AuthState)
    (h : st.loggedIn = true) :
    (runChat cfg password msgs st).1.loggedIn = true
      ∧ (runChat cfg password msgs st).1.attempts = st.attempts
      ∧ (runChat cfg password msgs st).2 = [] := by
  induction msgs generalizing st with
  | nil => simp [runChat, h]
  | cons entry rest ih =>
    obtain ⟨m, now, observations⟩ := entry
    obtain ⟨h1, h2, h3⟩ :=
      handleMessageAndRun_after_success cfg password st m now observations h
    obtain ⟨ih1, ih2, ih3⟩ :=
      ih (handleMessageAndRun cfg password st m now observations).state h1
    refine ⟨?_, ?_, ?_⟩ <;> simp [runChat, ih1, ih2, ih3, h2, h3]

/-- Witness for C6: a concrete logged-in state processing a
registration prompt followed by a login prompt keeps `loggedIn`,
leaves `attempts` at 2 and sends nothing. -/
theorem auth_loggedIn_monotone_witness :
    (AuthState.mk false true 2 Option.none).loggedIn = true
      ∧ ((runChat (AuthCfg.mk true) "pw"
            [(Msg.mk false false true false, 0, []),
             (Msg.mk false false false true, 5000, [])]
            (AuthState.mk false true 2 Option.none)).1.loggedIn = true
        ∧ (runChat (AuthCfg.mk true) "pw"
            [(Msg.mk false false true false, 0, []),
             (Msg.mk false false false true, 5000, [])]
            (AuthState.mk false true 2 Option.none)).1.attempts
            = (AuthState.mk false true 2 Option.none).attempts
        ∧ (runChat (AuthCfg.mk true) "pw"
            [(Msg.mk false false true false, 0, []),
             (Msg.mk false false false true, 5000, [])]
            (AuthState.mk false true 2 Option.none)).2 = []) :=
  ⟨rfl, auth_loggedIn_monotone (AuthCfg.mk true) "pw"
    [(Msg.mk false false true false, 0, []),
     (Msg.mk false false false true, 5000, [])]
    (AuthState.mk false true 2 Option.none) rfl⟩

/-- Helper: a submission loop always sends its first candidate command
(the source sends before checking `loggedIn`). -/
theorem runSubmissions_sends_first (markRegistered : Bool) (c : String)
    (cs : List String) (observations : List Bool) (st : AuthState) (now : ℤ) :
    (runSubmissions markRegistered (c :: cs) observations st now).2 ≠ [] := by
  simp only [runSubmissions]
  split <;> simp

/-- Counterexample for C7 (claim as stated is false): with
auto-submission disabled (`autoRegister = false`), a login prompt
arriving in a fresh state still sends the two login credential
commands — the configuration gate exists only on the registration
path, so no "manual action required" event replaces the submission. -/
theorem auth_login_prompt_ignores_autoRegister_gate :
    (handleMessageAndRun (AuthCfg.mk false) "pw"
        (AuthState.mk false false 0 Option.none)
        (Msg.mk false false false true) 0 []).commands
      = ["/login pw", "/l pw"]
    ∧ (handleMessageAndRun (AuthCfg.mk false) "pw"
        (AuthState.mk false false 0 Option.none)
        (Msg.mk false false false true) 0 []).commands ≠ [] := by
  have h : (handleMessageAndRun (AuthCfg.mk false) "pw"
      (AuthState.mk false false 0 Option.none)
      (Msg.mk false false false true) 0 []).commands
        = ["/login pw", "/l pw"] := rfl
  exact ⟨h, by rw [h]; simp⟩

/-- Claim C7 (amended): the configuration gate covers only the
registration path. With `autoRegister` disabled,
`attemptRegistration` sends no credential command, leaves the state
unchanged and emits `auth_required('registration')` instead; while
`attemptLogin` — which consults no configuration — always sends at
least its first credential command. -/
theorem auth_autoRegister_gates_registration_only (password : String)
    (st : AuthState) (now : ℤ) (observations : List Bool) :
    attemptRegistration (AuthCfg.mk false) password st now observations
        = { state := st, commands := []
            events := [AuthEvent.authRequired "registration"] }
      ∧ (attemptLogin password st now observations).commands ≠ [] := by
  constructor
  · simp [attemptRegistration]
  · have h := runSubmissions_sends_first false ("/login " ++ password)
      ["/l " ++ password] observations st now
    by_cases hl : (runSubmissions false
        ["/login " ++ password, "/l " ++ password] observations st now).1.loggedIn
          = true <;>
      simp [attemptLogin, hl, h]

/-- Claim C2: every terminal movement attempt produces exactly one
terminal outcome. For every race resolution, `executeGoto` (the common
body of `goToBlock` and `goNear`) emits exactly one of
`goal_reached`/`goal_failed`; on timer expiry it clears the goal at
the solver and fails with the movement-timeout error; on solver
rejection it clears the goal and propagates the error; on solver
resolution it succeeds with a single `goal_reached` event. -/
theorem executeGoto_single_terminal_outcome
    (d : String) (x y z : ℚ) (range : Nat) (race : RaceOutcome) :
    terminalCount (executeGoto d race).events = 1
      ∧ terminalCount (goToBlock x y z race).events = 1
      ∧ terminalCount (goNear x y z range race).events = 1
      ∧ (executeGoto d RaceOutcome.timedOut).clearedAtSolver = true
      ∧ (executeGoto d RaceOutcome.timedOut).result
          = Except.error ("Movement timeout: " ++ d)
      ∧ (∀ e, (executeGoto d (RaceOutcome.rejectedWith e)).clearedAtSolver = true
          ∧ (executeGoto d (RaceOutcome.rejectedWith e)).result = Except.error e)
      ∧ (executeGoto d RaceOutcome.resolved).result = Except.ok ()
      ∧ (executeGoto d RaceOutcome.resolved).events
          = [MoveEvt.started d, MoveEvt.reached d] := by
  refine ⟨?_, ?_, ?_, rfl, rfl, fun e => ⟨rfl, rfl⟩, rfl, rfl⟩ <;>
    · cases race <;> rfl

/-- Claim C1: every call to `stopMovement()` increases the cancellation
token `stopSignal` by exactly one, and for every snapshot `snap` read
via `getStopSignal()`, `wasStoppedAfter snap` is true iff the current
counter differs from `snap`; in particular a snapshot taken before a
`stopMovement()` call is always reported as stopped afterwards. -/
theorem stopSignal_increment_and_wasStoppedAfter
    (s : BotManagerState) (snap : Nat) :
    (stopMovement s).1.stopSignal = s.stopSignal + 1
      ∧ (wasStoppedAfter s snap = true ↔ getStopSignal s ≠ snap)
      ∧ wasStoppedAfter (stopMovement s).1 (getStopSignal s) = true := by
  refine ⟨rfl, ?_, ?_⟩
  · simp [wasStoppedAfter, getStopSignal]
  · simp [wasStoppedAfter, getStopSignal, stopMovement]

/-- Claim C9: area-bounds normalization is order-independent, and each
bound is the per-axis min/max of the floored corner coordinates. -/
theorem buildAreaBounds_comm (a b : AreaCoordinates) :
    buildAreaBounds a b = buildAreaBounds b a
      ∧ (buildAreaBounds a b).minX = min ⌊a.x⌋ ⌊b.x⌋
      ∧ (buildAreaBounds a b).maxX = max ⌊a.x⌋ ⌊b.x⌋
      ∧ (buildAreaBounds a b).minY = min ⌊a.y⌋ ⌊b.y⌋
      ∧ (buildAreaBounds a b).maxY = max ⌊a.y⌋ ⌊b.y⌋
      ∧ (buildAreaBounds a b).minZ = min ⌊a.z⌋ ⌊b.z⌋
      ∧ (buildAreaBounds a b).maxZ = max ⌊a.z⌋ ⌊b.z⌋ := by
  refine ⟨?_, ?_, ?_, ?_, ?_, ?_, ?_⟩ <;>
    simp [buildAreaBounds, AreaBounds.mk.injEq, jsFloor_eq_floor, min_comm, max_comm]

/-- Claim C10: `stopMovement()` is total over every `BotManager` state;
it always increments the cancellation counter and sets the mining
abort flag, also when no bot and no movement controller exist (where
the optional-chained external commands are simply skipped), and the
movement controller's `stop()` is a no-op while uninitialized. -/
theorem stopMovement_total
    (s : BotManagerState) (p : PathfinderControllerState) :
    (stopMovement s).1.stopSignal = s.stopSignal + 1
      ∧ (stopMovement s).1.abortMining = true
      ∧ (stopMovement { s with botPresent := false, controllerPresent := false }).2 = []
      ∧ pathfinderStop { p with initialized := false }
          = ({ p with initialized := false }, []) := by
  refine ⟨rfl, rfl, ?_, ?_⟩
  · simp [stopMovement]
  · simp [pathfinderStop]

/-- Claim C8: whenever `handleReconnect` schedules a reconnect, the
delay is `min(baseDelay * 2^(n-1), 60000)` for the attempt number `n`
it just moved to (so `n ≥ 1`), and the backoff formula is
non-decreasing in `n` up to the cap. -/
theorem reconnect_backoff (cfg : AdvancedCfg) (s s2 : ReconnState)
    (d baseDelay n m : Nat)
    (hsched : handleReconnect cfg s = (s2, ReconnectDecision.scheduled d))
    (h1 : 1 ≤ n) (hnm : n ≤ m) :
    d = min (cfg.reconnectDelayMs * 2 ^ (s2.reconnectAttempts - 1)) 60000
      ∧ 1 ≤ s2.reconnectAttempts
      ∧ reconnectDelay baseDelay n ≤ reconnectDelay baseDelay m := by
  refine ⟨?_, ?_, ?_⟩
  · unfold handleReconnect at hsched
    split_ifs at hsched with hshut hpend hbudget <;>
      simp_all [Prod.mk.injEq]
    obtain ⟨hs2, hd⟩ := hsched
    subst hs2
    exact hd.symm
  · unfold handleReconnect at hsched
    split_ifs at hsched with hshut hpend hbudget <;>
      simp_all [Prod.mk.injEq]
    obtain ⟨hs2, _⟩ := hsched
    subst hs2
    exact Nat.succ_le_succ (Nat.zero_le _)
  · unfold reconnectDelay
    refine min_le_min (Nat.mul_le_mul_left _ ?_) le_rfl
    exact Nat.pow_le_pow_right (by norm_num) (Nat.sub_le_sub_right hnm 1)

/-- Witness for C8: with a 5000 ms base delay and no pending timer,
the first scheduled attempt has delay `min(5000 * 2^0, 60000)`, the
counter has reached 1, and the formula at `n = 1` is at most the
formula at `n = 3`. -/
theorem reconnect_backoff_witness :
    (5000 : Nat)
        = min ((AdvancedCfg.mk 10 5000).reconnectDelayMs
            * 2 ^ ((ReconnState.mk false true 1).reconnectAttempts - 1)) 60000
      ∧ 1 ≤ (ReconnState.mk false true 1).reconnectAttempts
      ∧ reconnectDelay 5000 1 ≤ reconnectDelay 5000 3 :=
  reconnect_backoff (AdvancedCfg.mk 10 5000) (ReconnState.mk false false 0)
    (ReconnState.mk false true 1) 5000 5000 1 3 (by decide) (by decide) (by decide)

/-- Claim C3: calling `mineArea` while a mining task is already
running (on an otherwise operational manager) fails immediately with
the task-already-running error and leaves the manager state untouched;
and on every exit path of a started task — resolution with counts
(normal completion, exhaustion or cancellation all resolve) as well as
a propagated error — the `finally` has cleared `miningInProgress` and
`abortMining`. -/
theorem mineArea_exclusive_and_flags_cleared (bm : BotManagerState)
    (world : List Cell) (cornerA cornerB : AreaCoordinates)
    (script : List IterEnv) :
    (isReady bm = true → bm.controllerPresent = true →
      bm.controllerInitialized = true → bm.miningInProgress = true →
      mineArea bm world cornerA cornerB script
        = MineAreaOut.err MineError.taskAlreadyRunning bm)
    ∧ (∀ r bm2, mineArea bm world cornerA cornerB script
          = MineAreaOut.ok r bm2 →
        bm2.miningInProgress = false ∧ bm2.abortMining = false)
    ∧ (∀ bm2, mineArea bm world cornerA cornerB script
          = MineAreaOut.err MineError.movementError bm2 →
        bm2.miningInProgress = false ∧ bm2.abortMining = false) := by
  refine ⟨?_, ?_, ?_⟩
  · intro h1 h2 h3 h4
    simp [mineArea, h1, h2, h3, h4]
  · intro r bm2 h
    unfold mineArea at h
    split_ifs at h with g1 g2 g3 g4
    all_goals try exact absurd h (by simp)
    · cases hloop : mineLoop (buildAreaBounds cornerA cornerB) script
          (mineAreaInit bm world) with
      | finished m s stF =>
        rw [hloop] at h
        cases h
        exact ⟨rfl, rfl⟩
      | errored stF =>
        rw [hloop] at h
        exact absurd h (by simp)
      | outOfScript stF =>
        rw [hloop] at h
        exact absurd h (by simp)
  · intro bm2 h
    unfold mineArea at h
    split_ifs at h with g1 g2 g3 g4
    all_goals try exact absurd h (by simp)
    · cases hloop : mineLoop (buildAreaBounds cornerA cornerB) script
          (mineAreaInit bm world) with
      | finished m s stF =>
        rw [hloop] at h
        exact absurd h (by simp)
      | errored stF =>
        rw [hloop] at h
        cases h
        exact ⟨rfl, rfl⟩
      | outOfScript stF =>
        rw [hloop] at h
        exact absurd h (by simp)

/-- Witness for C3: a ready manager already running a task is refused
with its state unchanged, and a completed empty-area run exits with
both flags cleared. -/
theorem mineArea_exclusive_witness :
    (mineArea (BotManagerState.mk true true true true true false 0) []
        (AreaCoordinates.mk 0 0 0) (AreaCoordinates.mk 0 0 0) []
      = MineAreaOut.err MineError.taskAlreadyRunning
          (BotManagerState.mk true true true true true false 0))
    ∧ ((BotManagerState.mk true true true true false false 0).miningInProgress
          = false
        ∧ (BotManagerState.mk true true true true false false 0).abortMining
          = false) :=
  ⟨(mineArea_exclusive_and_flags_cleared
      (BotManagerState.mk true true true true true false 0) []
      (AreaCoordinates.mk 0 0 0) (AreaCoordinates.mk 0 0 0) []).1
      rfl rfl rfl rfl,
    (mineArea_exclusive_and_flags_cleared
      (BotManagerState.mk true true true true false false 0) []
      (AreaCoordinates.mk 0 0 0) (AreaCoordinates.mk 0 0 0)
      [IterEnv.mk false false MoveRes.ok false MineRes.mined,
       IterEnv.mk false false MoveRes.ok false MineRes.mined]).2.1
      (MineAreaResult.mk 0 0)
      (BotManagerState.mk true true true true false false 0) (by decide)⟩

/-- Counterexample for C4 (claim as stated is false): a run in which a
`stopMovement()` lands mid-task — during the repositioning move toward
the hover point, whose await then rejects (as it does when the stop
clears the active goal at the solver) — makes `mineArea` reject with
the movement error instead of returning the accumulated counts: the
repositioning await is outside the inner try/catch. The final
`stopSignal = 1` records that the stop arrived during this run. -/
theorem mineArea_stop_during_reposition_errors :
    mineArea (BotManagerState.mk true true true true false false 0) []
        (AreaCoordinates.mk 0 0 0) (AreaCoordinates.mk 0 0 0)
        [IterEnv.mk false true MoveRes.threw false MineRes.mined]
      = MineAreaOut.err MineError.movementError
          (BotManagerState.mk true true true true false false 1) := by
  decide

/-- Claim C4 (amended): once the abort flag has been set by
`stopMovement()`, the task loop terminates at the very next iteration
boundary — issuing no further block visits — and returns the counts
accumulated so far as a normal (non-error) result; the exception the
counterexample forces: a stop landing during a repositioning move to
the hover point whose await rejects is not absorbed, and that error
propagates out of `mineArea` instead. -/
theorem mineLoop_stop_terminates_at_boundary (bounds : AreaBounds)
    (script : List IterEnv) (st : LoopState)
    (h : st.bm.abortMining = true) :
    ∃ stF, mineLoop bounds script st
        = LoopOut.finished st.minedBlocks st.skippedBlocks stF
      ∧ stF.selections = st.selections := by
  cases script with
  | nil => exact ⟨st, by simp [mineLoop, h], rfl⟩
  | cons ev rest =>
    by_cases htop : ev.stopAtTop = true
    · refine ⟨applyStop st, ?_, rfl⟩
      simp [mineLoop, mineStep, htop, applyStop, stopMovement]
    · refine ⟨st, ?_, rfl⟩
      simp [mineLoop, mineStep, htop, h]

/-- Witness for C4 (amended): a loop state whose abort flag is set
finishes immediately with its current counts and no new selection,
whatever the remaining script holds. -/
theorem mineLoop_stop_terminates_witness :
    (LoopState.mk (BotManagerState.mk true true true true true true 1)
        [] [] 2 3 true []).bm.abortMining = true
      ∧ ∃ stF, mineLoop (AreaBounds.mk 0 0 0 0 0 0)
            [IterEnv.mk false false MoveRes.ok false MineRes.mined]
            (LoopState.mk (BotManagerState.mk true true true true true true 1)
              [] [] 2 3 true [])
          = LoopOut.finished 2 3 stF
        ∧ stF.selections = [] :=
  ⟨rfl, mineLoop_stop_terminates_at_boundary (AreaBounds.mk 0 0 0 0 0 0)
    [IterEnv.mk false false MoveRes.ok false MineRes.mined]
    (LoopState.mk (BotManagerState.mk true true true true true true 1)
      [] [] 2 3 true []) rfl⟩

/-- A concurrent stop touches only the manager state. -/
@[simp] theorem applyStop_world (st : LoopState) :
    (applyStop st).world = st.world := rfl

@[simp] theorem applyStop_ignoredBlocks (st : LoopState) :
    (applyStop st).ignoredBlocks = st.ignoredBlocks := rfl

@[simp] theorem applyStop_selections (st : LoopState) :
    (applyStop st).selections = st.selections := rfl

@[simp] theorem applyStop_minedBlocks (st : LoopState) :
    (applyStop st).minedBlocks = st.minedBlocks := rfl

@[simp] theorem applyStop_skippedBlocks (st : LoopState) :
    (applyStop st).skippedBlocks = st.skippedBlocks := rfl

@[simp] theorem applyStop_shouldRescan (st : LoopState) :
    (applyStop st).shouldRescanAfterReposition
      = st.shouldRescanAfterReposition := rfl

/-- Helper: the cell search only ever returns a cell that is still in
the world and not in the ignored set (the very filters the source
applies in the matcher and again on each candidate). -/
theorem findNextBlockInArea_sound (world : List Cell) (bounds : AreaBounds)
    (ignoredBlocks : List Cell) (c : Cell)
    (h : findNextBlockInArea world bounds ignoredBlocks = Option.some c) :
    c ∈ world ∧ c ∉ ignoredBlocks := by
  refine ⟨List.mem_of_find?_eq_some h, ?_⟩
  have hp := List.find?_some h
  simp only [Bool.and_eq_true, Bool.not_eq_true'] at hp
  intro hmem
  have : ignoredBlocks.contains c = true := by simpa using hmem
  rw [this] at hp
  exact absurd hp.2 (by simp)

/-- Helper: what the invariant demands of an iteration's result — a
continuing state satisfies the invariant again, a halting one leaves a
duplicate-free selection log. -/
theorem mineStep_ok (bounds : AreaBounds) (ev : IterEnv) (st : LoopState)
    (h : LoopInv st) : stepOk (mineStep bounds ev st) := by
  obtain ⟨hw, hs, hd⟩ := h
  by_cases htop : ev.stopAtTop = true
  · simp [mineStep, stepOk, finalLoopState, htop, applyStop, stopMovement, hs]
  · by_cases habort : st.bm.abortMining = true
    · simp [mineStep, stepOk, finalLoopState, htop, habort, hs]
    · cases hfind : findNextBlockInArea st.world bounds st.ignoredBlocks with
      | none =>
        by_cases hres : st.shouldRescanAfterReposition = true
        · cases hmv : ev.moveRes <;>
            by_cases hsm : ev.stopDuringMove = true <;>
              simp [mineStep, stepOk, finalLoopState, htop, habort, hfind,
                hres, hmv, hsm, applyStop, stopMovement, LoopInv, hw, hs, hd] <;>
                exact hd
        · simp [mineStep, stepOk, finalLoopState, htop, habort, hfind, hres, hs]
      | some c =>
        obtain ⟨hcw, hci⟩ := findNextBlockInArea_sound st.world bounds
          st.ignoredBlocks c hfind
        have hcs : c ∉ st.selections := by
          intro hmem
          rcases hd c hmem with hnw | hig
          · exact hnw hcw
          · exact hci hig
        have hnodup2 : (c :: st.selections).Nodup := by
          exact List.nodup_cons.mpr ⟨hcs, hs⟩
        have hdec2 : ∀ d ∈ c :: st.selections,
            d ∉ st.world.erase c ∨ d ∈ st.ignoredBlocks := by
          intro d hdm
          rcases List.mem_cons.mp hdm with rfl | hdm
          · exact Or.inl fun hmem =>
              absurd ((List.Nodup.mem_erase_iff hw).1 hmem).1 (by simp)
          · rcases hd d hdm with hnw | hig
            · exact Or.inl fun hmem => hnw (List.mem_of_mem_erase hmem)
            · exact Or.inr hig
        have hdec3 : ∀ d ∈ c :: st.selections,
            d ∉ st.world ∨ d ∈ c :: st.ignoredBlocks := by
          intro d hdm
          rcases List.mem_cons.mp hdm with rfl | hdm
          · exact Or.inr (List.mem_cons_self _ _)
          · rcases hd d hdm with hnw | hig
            · exact Or.inl hnw
            · exact Or.inr (List.mem_cons_of_mem c hig)
        cases hmine : ev.mineRes <;>
          by_cases hsmn : ev.stopDuringMine = true <;>
            simp [mineStep, stepOk, finalLoopState, htop, habort, hfind,
              hmine, hsmn, applyStop, stopMovement, LoopInv, hw, hs, hd,
              hnodup2, hdec2, hdec3, List.Nodup.erase, hw.erase] <;>
              first
                | exact fun a ha => hdec2 a (List.mem_cons_of_mem c ha)
                | exact fun a ha => (hd a ha).imp id Or.inr


/-- Helper: running the loop from any state satisfying the no-revisit
invariant leaves a duplicate-free selection log, however it ends. -/
theorem mineLoop_nodup (bounds : AreaBounds) (script : List IterEnv) :
    ∀ st : LoopState, LoopInv st →
      (finalLoopState (mineLoop bounds script st)).selections.Nodup := by
  induction script with
  | nil =>
    intro st h
    by_cases ha : st.bm.abortMining = true <;>
      simp [mineLoop, ha, finalLoopState, h.2.1]
  | cons ev rest ih =>
    intro st h
    have hok := mineStep_ok bounds ev st h
    cases hstep : mineStep bounds ev st with
    | next st2 =>
      rw [hstep] at hok
      simpa [mineLoop, hstep] using ih st2 hok
    | halt out =>
      rw [hstep] at hok
      simpa [mineLoop, hstep] using hok

/-- Claim C5: during one `mineArea` task — started from the task's
initial loop state over a world listing each diggable cell once — a
cell whose outcome was decided (removed from the world on success, or
added to the ignored set on a skip) is never returned by
`findNextBlockInArea` again: the task's full selection log is
duplicate-free, and the search only ever returns cells still present
in the world and absent from the ignored set. -/
theorem mineArea_no_cell_revisited (bm : BotManagerState) (world : List Cell)
    (cornerA cornerB : AreaCoordinates) (script : List IterEnv)
    (hworld : world.Nodup) :
    (finalLoopState (mineLoop (buildAreaBounds cornerA cornerB) script
        (mineAreaInit bm world))).selections.Nodup
      ∧ ∀ w bounds ig c, findNextBlockInArea w bounds ig = Option.some c →
          c ∈ w ∧ c ∉ ig := by
  constructor
  · exact mineLoop_nodup (buildAreaBounds cornerA cornerB) script
      (mineAreaInit bm world) ⟨hworld, List.nodup_nil, by simp [mineAreaInit]⟩
  · exact fun w bounds ig c h => findNextBlockInArea_sound w bounds ig c h

/-- Witness for C5: a two-cell world worked over three iterations
(success, skip, then a further attempt) produces a duplicate-free
selection log. -/
theorem mineArea_no_cell_revisited_witness :
    ([Cell.mk 0 0 0, Cell.mk 1 0 0] : List Cell).Nodup
      ∧ ((finalLoopState (mineLoop
            (buildAreaBounds (AreaCoordinates.mk 0 0 0) (AreaCoordinates.mk 1 1 1))
            [IterEnv.mk false false MoveRes.ok false MineRes.mined,
             IterEnv.mk false false MoveRes.ok false MineRes.notEligible,
             IterEnv.mk false false MoveRes.ok false MineRes.mined]
            (mineAreaInit (BotManagerState.mk true true true true false false 0)
              [Cell.mk 0 0 0, Cell.mk 1 0 0]))).selections.Nodup
        ∧ ∀ w bounds ig c, findNextBlockInArea w bounds ig = Option.some c →
            c ∈ w ∧ c ∉ ig) :=
  ⟨by decide,
    mineArea_no_cell_revisited
      (BotManagerState.mk true true true true false false 0)
      [Cell.mk 0 0 0, Cell.mk 1 0 0]
      (AreaCoordinates.mk 0 0 0) (AreaCoordinates.mk 1 1 1)
      [IterEnv.mk false false MoveRes.ok false MineRes.mined,
       IterEnv.mk false false MoveRes.ok false MineRes.notEligible,
       IterEnv.mk false false MoveRes.ok false MineRes.mined]
      (by decide)⟩

end MCBot

namespace MCBot

/-- Witness for C1 at a concrete state and snapshot. -/
theorem stopSignal_increment_witness :
    (stopMovement (BotManagerState.mk true true true true false false 5)).1.stopSignal
        = (BotManagerState.mk true true true true false false 5).stopSignal + 1
      ∧ wasStoppedAfter
          (stopMovement (BotManagerState.mk true true true true false false 5)).1
          (getStopSignal (BotManagerState.mk true true true true false false 5))
          = true :=
  ⟨(stopSignal_increment_and_wasStoppedAfter
      (BotManagerState.mk true true true true false false 5) 5).1,
    (stopSignal_increment_and_wasStoppedAfter
      (BotManagerState.mk true true true true false false 5) 5).2.2⟩

/-- Witness for C2 at a concrete description and a timed-out race. -/
theorem executeGoto_single_terminal_witness :
    terminalCount (executeGoto "goto (1, 2, 3)" RaceOutcome.timedOut).events = 1
      ∧ (executeGoto "goto (1, 2, 3)" RaceOutcome.timedOut).clearedAtSolver
          = true :=
  ⟨(executeGoto_single_terminal_outcome "goto (1, 2, 3)" 1 2 3 4
      RaceOutcome.timedOut).1,
    (executeGoto_single_terminal_outcome "goto (1, 2, 3)" 1 2 3 4
      RaceOutcome.timedOut).2.2.2.1⟩

/-- Witness for C7 (amended) at a concrete state. -/
theorem auth_autoRegister_gates_witness :
    attemptRegistration (AuthCfg.mk false) "pw"
        (AuthState.mk false false 0 Option.none) 0 []
        = { state := AuthState.mk false false 0 Option.none, commands := []
            events := [AuthEvent.authRequired "registration"] }
      ∧ (attemptLogin "pw" (AuthState.mk false false 0 Option.none) 0 []).commands
          ≠ [] :=
  auth_autoRegister_gates_registration_only "pw"
    (AuthState.mk false false 0 Option.none) 0 []

/-- Witness for C9 at concrete corners. -/
theorem buildAreaBounds_comm_witness :
    buildAreaBounds (AreaCoordinates.mk 0 5 3) (AreaCoordinates.mk 4 1 7)
      = buildAreaBounds (AreaCoordinates.mk 4 1 7) (AreaCoordinates.mk 0 5 3) :=
  (buildAreaBounds_comm (AreaCoordinates.mk 0 5 3) (AreaCoordinates.mk 4 1 7)).1

/-- Witness for C10 at a state with no bot and no controller. -/
theorem stopMovement_total_witness :
    (stopMovement (BotManagerState.mk false false false false false false 0)).1.stopSignal
        = (BotManagerState.mk false false false false false false 0).stopSignal + 1
      ∧ (stopMovement (BotManagerState.mk false false false false false false 0)).1.abortMining
          = true :=
  ⟨(stopMovement_total (BotManagerState.mk false false false false false false 0)
      (PathfinderControllerState.mk false false Option.none)).1,
    (stopMovement_total (BotManagerState.mk false false false false false false 0)
      (PathfinderControllerState.mk false false Option.none)).2.1⟩

end MCBot
